import Mathlib

/-!
# Verification of the learning-SaaS Progress & Analytics core

Shallow embedding of the core handlers of `src/app/main.py` (Flask app) over
the data model of `src/app/models.py`, together with theorems settling the
frozen claims about the progress tracker, quiz engine, analytics aggregator
and history query.

Modelling conventions:
* Database rows are Lean structures with the fields the handlers read;
  SQLAlchemy tables become `List` fields of a `Db` record, and autoincrement
  primary keys become explicit `next…Id` counters.
* `datetime` values (`datetime.utcnow()`, `completed_at`, `taken_at`) are
  modelled as `Int` seconds since the Unix epoch; a calendar day `d` spans
  ticks `[86400*d, 86400*(d+1))`, `.date()` is floor division by 86400
  (`Int./` is Euclidean division, which agrees with floor division for the
  positive divisor 86400), and `datetime(y, m, d)` (midnight) is
  `86400 * daysFromCivil y m d`.
* `int(x / y * 100)` on nonnegative ints in Python is embedded as exact
  rational floor, i.e. Nat division `x * 100 / y` (floating-point rounding
  of the intermediate `x / y` is idealized away).
* Each Flask handler becomes a function `Db → inputs → Db × Outcome`; the
  returned `Db` is the state after `db.session.commit()` (a handler that
  never calls `session.add`/`commit` returns its input state unchanged).
-/

/-- Python's `datetime.date()` on a timestamp (timestamps are `Int`
seconds since the Unix epoch): the calendar-day number. `Int./` is
Euclidean division, equal to floor division here (86400 > 0). -/
def dateOf (ts : Int) : Int := ts / 86400

/-- Midnight at the start of calendar day `d`, as a timestamp
(`datetime(d.year, d.month, d.day)` in the source). -/
def midnight (d : Int) : Int := 86400 * d

/-- `models.User` (plus flask-login's `is_authenticated`): the fields the
core handlers read. `role` is `"admin"` or `"student"`. -/
structure User where
  id : Nat
  role : String
  is_authenticated : Bool
deriving DecidableEq

/-- `models.Course`: only the primary key is read by the verified handlers. -/
structure Course where
  id : Nat
deriving DecidableEq

/-- `models.Lesson`. -/
structure Lesson where
  id : Nat
  course_id : Nat
  sort_order : Nat
deriving DecidableEq

/-- `models.Enrollment`. -/
structure Enrollment where
  id : Nat
  user_id : Nat
  course_id : Nat
deriving DecidableEq

/-- `models.LessonProgress`: completion record for one (user, lesson) pair. -/
structure LessonProgress where
  id : Nat
  user_id : Nat
  lesson_id : Nat
  is_completed : Bool
  completed_at : Option Int
deriving DecidableEq

/-- `models.QuizQuestion`. -/
structure QuizQuestion where
  id : Nat
  lesson_id : Nat
  sort_order : Nat
deriving DecidableEq

/-- `models.QuizChoice`. -/
structure QuizChoice where
  id : Nat
  question_id : Nat
  choice_text : String
  is_correct : Bool
deriving DecidableEq

/-- `models.QuizResult`: one row per quiz attempt. -/
structure QuizResult where
  id : Nat
  user_id : Nat
  lesson_id : Nat
  score : Nat
  total_questions : Nat
  taken_at : Int
deriving DecidableEq

/-- `models.QuizResultDetail`: one row per answered question of a result. -/
structure QuizResultDetail where
  id : Nat
  result_id : Nat
  question_id : Nat
  choice_id : Nat
  is_correct : Bool
deriving DecidableEq

/-- `models.UserProfile`: the field the dashboard reads
(`weekly_goal_lessons`, nullable = "no goal set"). -/
structure UserProfile where
  user_id : Nat
  weekly_goal_lessons : Option Nat
deriving DecidableEq

/-- The relational store: one list per table, plus autoincrement counters
for the rows the verified handlers insert. -/
structure Db where
  courses : List Course
  lessons : List Lesson
  enrollments : List Enrollment
  progresses : List LessonProgress
  questions : List QuizQuestion
  choices : List QuizChoice
  results : List QuizResult
  details : List QuizResultDetail
  nextProgressId : Nat
  nextResultId : Nat
  nextDetailId : Nat
deriving DecidableEq

/-- Replace the first element satisfying `p` by `f` of it (SQLAlchemy
`.first()` lookup followed by in-place mutation of the found row). -/
def updateFirst (p : α → Bool) (f : α → α) : List α → List α
  | [] => []
  | x :: xs => if p x then f x :: xs else x :: updateFirst p f xs

/-- The rows of `lesson_progress` for one (user, lesson) pair. -/
def progressRowsFor (db : Db) (uid lid : Nat) : List LessonProgress :=
  db.progresses.filter (fun p => p.user_id == uid && p.lesson_id == lid)

/-- Outcome of the `complete_lesson` handler. -/
inductive CompleteOutcome where
  /-- `Lesson.query.get_or_404` failed. -/
  | notFound
  /-- "このコースを受講登録していません。" — not enrolled, redirect to course. -/
  | redirectCourse (course_id : Nat)
  /-- Lesson marked completed, redirect back to the lesson. -/
  | completed (lesson_id : Nat)
deriving DecidableEq

/-- `main.complete_lesson` (src/app/main.py lines 965-995): looks up the
lesson, requires an `Enrollment` row for the acting user and the owning
course (no role check — admins get no bypass here), then upserts the
(user, lesson) `LessonProgress` row: insert a completed row if absent,
otherwise set `is_completed = True` and refresh `completed_at` on the first
matching row. -/
def completeLesson (db : Db) (user : User) (lesson_id : Nat) (now : Int) :
    Db × CompleteOutcome :=
  match db.lessons.find? (fun l => l.id == lesson_id) with
  | none => (db, .notFound)
  | some lesson =>
    match db.enrollments.find?
        (fun e => e.user_id == user.id && e.course_id == lesson.course_id) with
    | none => (db, .redirectCourse lesson.course_id)
    | some _ =>
      match db.progresses.find?
          (fun p => p.user_id == user.id && p.lesson_id == lesson.id) with
      | none =>
        let p : LessonProgress :=
          ⟨db.nextProgressId, user.id, lesson.id, true, some now⟩
        ({ db with progresses := db.progresses ++ [p],
                   nextProgressId := db.nextProgressId + 1 },
         .completed lesson.id)
      | some _ =>
        let upd := updateFirst
          (fun p => p.user_id == user.id && p.lesson_id == lesson.id)
          (fun p => { p with is_completed := true, completed_at := some now })
          db.progresses
        ({ db with progresses := upd }, .completed lesson.id)

lemma filter_eq_nil_of_find?_eq_none {p : α → Bool} {l : List α}
    (h : l.find? p = none) : l.filter p = [] := by
  rw [List.filter_eq_nil_iff]
  intro a ha
  simpa using List.find?_eq_none.mp h a ha

lemma filter_eq_singleton_of_mem {p : α → Bool} {l : List α} {a : α}
    (hmem : a ∈ l) (hpa : p a = true) (hlen : (l.filter p).length ≤ 1) :
    l.filter p = [a] := by
  have hmemf : a ∈ l.filter p := List.mem_filter.mpr ⟨hmem, hpa⟩
  match hf : l.filter p with
  | [] => rw [hf] at hmemf; simp at hmemf
  | [b] =>
    rw [hf] at hmemf
    simp at hmemf
    rw [hmemf]
  | b :: c :: rest => rw [hf] at hlen; simp at hlen

lemma filter_updateFirst_self (q : α → Bool) (f : α → α)
    (hf : ∀ a, q a = true → q (f a) = true) :
    ∀ l : List α, (l.filter q).length ≤ 1 →
      (updateFirst q f l).filter q = (l.filter q).map f := by
  intro l
  induction l with
  | nil => intro _; simp [updateFirst]
  | cons x xs ih =>
    intro hlen
    cases hx : q x with
    | true =>
      have hxx : (x :: xs).filter q = x :: xs.filter q := by
        simp [List.filter_cons, hx]
      rw [hxx, List.length_cons] at hlen
      have hrest : xs.filter q = [] := List.length_eq_zero.mp (by omega)
      simp [updateFirst, hx, List.filter_cons, hf x hx, hrest]
    | false =>
      have hxx : (x :: xs).filter q = xs.filter q := by
        simp [List.filter_cons, hx]
      rw [hxx] at hlen
      simp [updateFirst, hx, List.filter_cons, ih hlen]

lemma filter_updateFirst_other (q r : α → Bool) (f : α → α)
    (hrf : ∀ a, r (f a) = r a) (hdisj : ∀ a, q a = true → r a = false) :
    ∀ l : List α, (updateFirst q f l).filter r = l.filter r := by
  intro l
  induction l with
  | nil => simp [updateFirst]
  | cons x xs ih =>
    cases hx : q x with
    | true =>
      have hrx : r x = false := hdisj x hx
      have hrfx : r (f x) = false := by rw [hrf x]; exact hrx
      simp [updateFirst, hx, List.filter_cons, hrx, hrfx]
    | false =>
      cases hrx : r x with
      | true => simp [updateFirst, hx, List.filter_cons, hrx, ih]
      | false => simp [updateFirst, hx, List.filter_cons, hrx, ih]

lemma filter_singleton_progress (pr : LessonProgress) (uid lid : Nat)
    (h : ¬(uid = pr.user_id ∧ lid = pr.lesson_id)) :
    [pr].filter (fun p => p.user_id == uid && p.lesson_id == lid) = [] := by
  rw [List.filter_eq_nil_iff]
  intro a ha
  simp only [List.mem_singleton] at ha
  subst ha
  simp only [Bool.and_eq_true, beq_iff_eq, not_and]
  intro h1 h2
  exact h ⟨h1.symm, h2.symm⟩

/-- C4: for every user and lesson, a lesson-completion action that passes the
enrollment gate, run on a store where each (user, lesson) pair has at most
one `LessonProgress` row, leaves exactly one row for that pair — completed
and stamped with the new timestamp — changes no other pair's rows, and
preserves the at-most-one invariant; hence any sequential sequence of
completions yields exactly one row per completed pair carrying the latest
`completed_at`, never a duplicate. -/
theorem C4_lesson_progress_unique (db : Db) (user : User) (lesson : Lesson)
    (lesson_id : Nat) (now : Int)
    (hl : db.lessons.find? (fun l => l.id == lesson_id) = some lesson)
    (he : (db.enrollments.find?
      (fun e => e.user_id == user.id && e.course_id == lesson.course_id)).isSome)
    (hinv : ∀ uid lid, (progressRowsFor db uid lid).length ≤ 1) :
    (∃ p, progressRowsFor (completeLesson db user lesson_id now).1 user.id lesson.id
        = [p] ∧ p.is_completed = true ∧ p.completed_at = some now ∧
        p.user_id = user.id ∧ p.lesson_id = lesson.id) ∧
    (∀ uid lid, ¬(uid = user.id ∧ lid = lesson.id) →
      progressRowsFor (completeLesson db user lesson_id now).1 uid lid =
        progressRowsFor db uid lid) ∧
    (∀ uid lid,
      (progressRowsFor (completeLesson db user lesson_id now).1 uid lid).length ≤ 1) ∧
    (completeLesson db user lesson_id now).2 = .completed lesson.id := by
  obtain ⟨e, hee⟩ := Option.isSome_iff_exists.mp he
  match hfind : db.progresses.find?
      (fun p => p.user_id == user.id && p.lesson_id == lesson.id) with
  | none =>
    have hnil : db.progresses.filter
        (fun p => p.user_id == user.id && p.lesson_id == lesson.id) = [] :=
      filter_eq_nil_of_find?_eq_none hfind
    have hres : (completeLesson db user lesson_id now).1.progresses
        = db.progresses ++ [⟨db.nextProgressId, user.id, lesson.id, true, some now⟩] := by
      simp only [completeLesson, hl, hee, hfind]
    have hout : (completeLesson db user lesson_id now).2 = .completed lesson.id := by
      simp only [completeLesson, hl, hee, hfind]
    refine ⟨⟨⟨db.nextProgressId, user.id, lesson.id, true, some now⟩, ?_, rfl, rfl, rfl, rfl⟩, ?_, ?_, hout⟩
    · simp only [progressRowsFor, hres, List.filter_append, hnil, List.nil_append]
      simp
    · intro uid lid hne
      simp only [progressRowsFor, hres, List.filter_append]
      rw [filter_singleton_progress _ uid lid (by exact hne), List.append_nil]
    · intro uid lid
      by_cases hpair : uid = user.id ∧ lid = lesson.id
      · obtain ⟨h1, h2⟩ := hpair
        subst h1; subst h2
        simp only [progressRowsFor, hres, List.filter_append, hnil, List.nil_append]
        simp
      · simp only [progressRowsFor, hres, List.filter_append]
        rw [filter_singleton_progress _ uid lid (by exact hpair), List.append_nil]
        exact hinv uid lid
  | some p0 =>
    have hq := List.find?_some hfind
    have hmem : p0 ∈ db.progresses := List.mem_of_find?_eq_some hfind
    have hone : db.progresses.filter
        (fun p => p.user_id == user.id && p.lesson_id == lesson.id) = [p0] :=
      filter_eq_singleton_of_mem hmem hq (hinv user.id lesson.id)
    have hres : (completeLesson db user lesson_id now).1.progresses
        = updateFirst (fun p => p.user_id == user.id && p.lesson_id == lesson.id)
            (fun p => { p with is_completed := true, completed_at := some now })
            db.progresses := by
      simp only [completeLesson, hl, hee, hfind]
    have hout : (completeLesson db user lesson_id now).2 = .completed lesson.id := by
      simp only [completeLesson, hl, hee, hfind]
    have hself := filter_updateFirst_self
      (fun p : LessonProgress => p.user_id == user.id && p.lesson_id == lesson.id)
      (fun p => { p with is_completed := true, completed_at := some now })
      (fun a ha => by simpa using ha) db.progresses (hinv user.id lesson.id)
    rw [hone] at hself
    have hq' : p0.user_id = user.id ∧ p0.lesson_id = lesson.id := by
      simpa [Bool.and_eq_true, beq_iff_eq] using hq
    refine ⟨⟨{ p0 with is_completed := true, completed_at := some now }, ?_, rfl, rfl, hq'.1, hq'.2⟩, ?_, ?_, hout⟩
    · simp only [progressRowsFor, hres]
      rw [hself]
      simp
    · intro uid lid hne
      have hd : ∀ a : LessonProgress,
          (a.user_id == user.id && a.lesson_id == lesson.id) = true →
          (a.user_id == uid && a.lesson_id == lid) = false := by
        intro a ha
        simp only [Bool.and_eq_true, beq_iff_eq] at ha
        cases hc : (a.user_id == uid && a.lesson_id == lid) with
        | false => rfl
        | true =>
          simp only [Bool.and_eq_true, beq_iff_eq] at hc
          exact absurd ⟨by rw [← hc.1]; exact ha.1, by rw [← hc.2]; exact ha.2⟩ hne
      simp only [progressRowsFor, hres]
      exact filter_updateFirst_other _ _
        (fun p => { p with is_completed := true, completed_at := some now })
        (fun a => rfl) hd db.progresses
    · intro uid lid
      by_cases hpair : uid = user.id ∧ lid = lesson.id
      · obtain ⟨h1, h2⟩ := hpair
        subst h1; subst h2
        simp only [progressRowsFor, hres]
        rw [hself]
        simp
      · have hd : ∀ a : LessonProgress,
            (a.user_id == user.id && a.lesson_id == lesson.id) = true →
            (a.user_id == uid && a.lesson_id == lid) = false := by
          intro a ha
          simp only [Bool.and_eq_true, beq_iff_eq] at ha
          cases hc : (a.user_id == uid && a.lesson_id == lid) with
          | false => rfl
          | true =>
            simp only [Bool.and_eq_true, beq_iff_eq] at hc
            exact absurd ⟨by rw [← hc.1]; exact ha.1, by rw [← hc.2]; exact ha.2⟩ hpair
        simp only [progressRowsFor, hres]
        rw [filter_updateFirst_other _ _
          (fun p => { p with is_completed := true, completed_at := some now })
          (fun a => rfl) hd db.progresses]
        exact hinv uid lid

/-- Numeric value of a list of decimal digits. -/
def digitsVal (cs : List Char) : Nat :=
  cs.foldl (fun n c => n * 10 + (c.toNat - 48)) 0

/-- Surrounding-whitespace strip on a character list (`str` values are
stripped by Python's `int()` before parsing). -/
def stripWs (cs : List Char) : List Char :=
  ((cs.dropWhile Char.isWhitespace).reverse.dropWhile Char.isWhitespace).reverse

/-- Python's built-in `int(s)` on a form string, as called by `quiz_take`
and `quiz_retry_submit`: surrounding whitespace is stripped, then an
optional sign followed by one or more decimal digits; anything else raises
`ValueError`, modelled as `none`. (Python additionally accepts underscore
separators between digits and non-ASCII digits; no claim depends on
those inputs.) -/
def pyInt (s : String) : Option Int :=
  match stripWs s.toList with
  | [] => none
  | c :: rest =>
    if c = '-' then
      if rest ≠ [] && rest.all Char.isDigit then some (-(Int.ofNat (digitsVal rest)))
      else none
    else if c = '+' then
      if rest ≠ [] && rest.all Char.isDigit then some (Int.ofNat (digitsVal rest))
      else none
    else if (c :: rest).all Char.isDigit then some (Int.ofNat (digitsVal (c :: rest)))
    else none

/-- `request.form.get(name)`: the first value submitted for the field, if
any. -/
def formGet (form : List (String × String)) (name : String) : Option String :=
  (form.find? (fun kv => kv.fst == name)).map Prod.snd

/-- Answer resolution for one question inside `quiz_take`'s POST loop
(src/app/main.py lines 1451-1466): read field `q_<question id>`; a missing
or empty value is "unanswered" (`if not selected_choice_id: continue`); a
value that does not parse as an int (`except ValueError: continue`), or an
int that is no stored `QuizChoice` primary key
(`QuizChoice.query.get(...)` returning `None`), is skipped identically;
otherwise the selected stored choice. -/
def answeredChoice (choices : List QuizChoice) (form : List (String × String))
    (q : QuizQuestion) : Option QuizChoice :=
  match formGet form ("q_" ++ toString q.id) with
  | none => none
  | some s =>
    if s == "" then none
    else
      match pyInt s with
      | none => none
      | some n => choices.find? (fun c => ((c.id : Int)) == n)

/-- Whether `quiz_take` counts question `q` toward the correct count:
answered, resolving to a stored choice whose `is_correct` flag is set. -/
def answeredCorrectly (choices : List QuizChoice) (form : List (String × String))
    (q : QuizQuestion) : Bool :=
  match answeredChoice choices form q with
  | none => false
  | some c => c.is_correct

/-- The grading loop of `quiz_take` (src/app/main.py lines 1451-1478):
left to right over the presented questions, skipping unanswered or
unresolvable answers, otherwise emitting one `QuizResultDetail` row (with
`is_correct` copied from the stored choice) and accumulating the running
correct count. Returns (correct_count, new detail rows, next detail id). -/
def gradeLoop (choices : List QuizChoice) (form : List (String × String))
    (rid : Nat) (did : Nat) :
    List QuizQuestion → Nat × List QuizResultDetail × Nat
  | [] => (0, [], did)
  | q :: qs =>
    match answeredChoice choices form q with
    | none => gradeLoop choices form rid did qs
    | some c =>
      let rest := gradeLoop choices form rid (did + 1) qs
      ((if c.is_correct then 1 else 0) + rest.1,
       ⟨did, rid, q.id, c.id, c.is_correct⟩ :: rest.2.1, rest.2.2)

instance : DecidableRel (fun a b : QuizQuestion => a.sort_order ≤ b.sort_order) :=
  fun a b => Nat.decLe a.sort_order b.sort_order

/-- The lesson's question list as presented:
`QuizQuestion.query.filter_by(lesson_id=...).order_by(QuizQuestion.sort_order)`. -/
def lessonQuestions (db : Db) (lesson_id : Nat) : List QuizQuestion :=
  List.insertionSort (fun a b => a.sort_order ≤ b.sort_order)
    (db.questions.filter (fun q => q.lesson_id == lesson_id))

/-- Outcome of the POST branch of `quiz_take`. -/
inductive QuizTakeOutcome where
  /-- `Lesson.query.get_or_404` failed. -/
  | notFound
  /-- Non-admin without an enrollment: redirect to the course, no write. -/
  | notEnrolled (course_id : Nat)
  /-- Lesson has no questions: redirect to the lesson, no write. -/
  | noQuiz (lesson_id : Nat)
  /-- Attempt graded and persisted; redirect to the result page. -/
  | graded (result_id : Nat) (correct : Nat) (total : Nat)
deriving DecidableEq

/-- POST branch of `main.quiz_take` (src/app/main.py lines 1400-1487):
look up the lesson; a non-admin must hold an `Enrollment` row for the
owning course (the admin role bypasses this check); with zero questions
redirect away without writing; otherwise create the `QuizResult` shell
with `score = 0` and `total_questions = len(questions)`, run the grading
loop, finalize `score` to the running correct count, and commit. The
committed state appends the finalized result and its detail rows (the
two-phase shell-then-finalize write collapses to its committed effect). -/
def quizTakePost (db : Db) (user : User) (lesson_id : Nat)
    (form : List (String × String)) (now : Int) : Db × QuizTakeOutcome :=
  match db.lessons.find? (fun l => l.id == lesson_id) with
  | none => (db, .notFound)
  | some lesson =>
    if user.role != "admin" &&
        (db.enrollments.find?
          (fun e => e.user_id == user.id && e.course_id == lesson.course_id)).isNone then
      (db, .notEnrolled lesson.course_id)
    else
      let questions := lessonQuestions db lesson.id
      if questions.isEmpty then (db, .noQuiz lesson.id)
      else
        let rid := db.nextResultId
        let g := gradeLoop db.choices form rid db.nextDetailId questions
        let quiz_result : QuizResult := ⟨rid, user.id, lesson.id, g.1, questions.length, now⟩
        ({ db with results := db.results ++ [quiz_result],
                   details := db.details ++ g.2.1,
                   nextResultId := rid + 1,
                   nextDetailId := g.2.2 },
         .graded rid g.1 questions.length)

lemma gradeLoop_score (choices : List QuizChoice) (form : List (String × String))
    (rid : Nat) : ∀ (qs : List QuizQuestion) (did : Nat),
    (gradeLoop choices form rid did qs).1
      = qs.countP (answeredCorrectly choices form) := by
  intro qs
  induction qs with
  | nil => intro did; simp [gradeLoop]
  | cons q qs ih =>
    intro did
    rw [List.countP_cons]
    cases hac : answeredChoice choices form q with
    | none =>
      simp [gradeLoop, hac, ih, answeredCorrectly]
    | some c =>
      cases hc : c.is_correct with
      | true => simp [gradeLoop, hac, hc, ih, answeredCorrectly, Nat.add_comm]
      | false => simp [gradeLoop, hac, hc, ih, answeredCorrectly]

lemma gradeLoop_details_length (choices : List QuizChoice)
    (form : List (String × String)) (rid : Nat) :
    ∀ (qs : List QuizQuestion) (did : Nat),
    (gradeLoop choices form rid did qs).2.1.length
      = qs.countP (fun q => (answeredChoice choices form q).isSome) := by
  intro qs
  induction qs with
  | nil => intro did; simp [gradeLoop]
  | cons q qs ih =>
    intro did
    rw [List.countP_cons]
    cases hac : answeredChoice choices form q with
    | none => simp [gradeLoop, hac, ih]
    | some c => simp [gradeLoop, hac, ih, Nat.add_comm]

lemma gradeLoop_details_per_question (choices : List QuizChoice)
    (form : List (String × String)) (rid : Nat) :
    ∀ (qs : List QuizQuestion) (did : Nat) (qid : Nat),
    ((gradeLoop choices form rid did qs).2.1.filter
        (fun d => d.question_id == qid)).length
      = (qs.filter (fun q => q.id == qid)).countP
          (fun q => (answeredChoice choices form q).isSome) := by
  intro qs
  induction qs with
  | nil => intro did qid; simp [gradeLoop]
  | cons q qs ih =>
    intro did qid
    cases hac : answeredChoice choices form q with
    | none =>
      cases hq : (q.id == qid) with
      | true =>
        simp [gradeLoop, hac, List.filter_cons, hq, List.countP_cons, ih]
      | false =>
        simp [gradeLoop, hac, List.filter_cons, hq, ih]
    | some c =>
      cases hq : (q.id == qid) with
      | true =>
        simp [gradeLoop, hac, List.filter_cons, hq, List.countP_cons, ih, Nat.add_comm]
      | false =>
        simp [gradeLoop, hac, List.filter_cons, hq, ih]

lemma gradeLoop_details_mem (choices : List QuizChoice)
    (form : List (String × String)) (rid : Nat) :
    ∀ (qs : List QuizQuestion) (did : Nat) (d : QuizResultDetail),
    d ∈ (gradeLoop choices form rid did qs).2.1 →
    ∃ q ∈ qs, ∃ c, answeredChoice choices form q = some c ∧
      d.result_id = rid ∧ d.question_id = q.id ∧ d.choice_id = c.id ∧
      d.is_correct = c.is_correct := by
  intro qs
  induction qs with
  | nil => intro did d hd; simp [gradeLoop] at hd
  | cons q qs ih =>
    intro did d hd
    cases hac : answeredChoice choices form q with
    | none =>
      rw [gradeLoop, hac] at hd
      obtain ⟨q', hq', rest⟩ := ih did d hd
      exact ⟨q', List.mem_cons_of_mem q hq', rest⟩
    | some c =>
      rw [gradeLoop, hac] at hd
      rcases List.mem_cons.mp hd with heq | hmem
      · subst heq
        exact ⟨q, List.mem_cons_self q qs, c, hac, rfl, rfl, rfl, rfl⟩
      · obtain ⟨q', hq', rest⟩ := ih (did + 1) d hmem
        exact ⟨q', List.mem_cons_of_mem q hq', rest⟩

lemma count_le_one_of_nodup_map_id {qs : List QuizQuestion}
    (hnodup : (qs.map (fun q => q.id)).Nodup) (qid : Nat) :
    (qs.filter (fun q => q.id == qid)).length ≤ 1 := by
  rw [← List.countP_eq_length_filter]
  have h1 : qs.countP (fun q => q.id == qid)
      = (qs.map (fun q => q.id)).countP (fun x => x == qid) := by
    rw [List.countP_map]
    rfl
  rw [h1, ← List.count]
  exact List.nodup_iff_count_le_one.mp hnodup qid

lemma filter_id_singleton {qs : List QuizQuestion}
    (hnodup : (qs.map (fun q => q.id)).Nodup) {q : QuizQuestion} (hq : q ∈ qs) :
    qs.filter (fun q' => q'.id == q.id) = [q] :=
  filter_eq_singleton_of_mem hq (by simp) (count_le_one_of_nodup_map_id hnodup q.id)

/-- C1: for every quiz submission on a lesson with a non-empty question
list (by a user passing the enrollment/admin gate, with the stored question
ids distinct as primary keys are), the persisted `QuizResult` has `score`
equal to the number of submitted answers whose referenced stored choice has
`is_correct = true` and `total_questions` equal to the number of questions
presented; exactly one `QuizResultDetail` row is appended per answered
question whose choice id resolves to a stored choice, with `is_correct`
copied from that choice's stored flag, and no detail row exists for an
unanswered question — which hence contributes nothing to `score` while
still counting toward `total_questions`. -/
theorem C1_quiz_take_scoring (db : Db) (user : User) (lesson : Lesson)
    (lesson_id : Nat) (form : List (String × String)) (now : Int)
    (hl : db.lessons.find? (fun l => l.id == lesson_id) = some lesson)
    (hauth : user.role = "admin" ∨ (db.enrollments.find?
      (fun e => e.user_id == user.id && e.course_id == lesson.course_id)).isSome)
    (hne : lessonQuestions db lesson.id ≠ [])
    (hnodup : ((lessonQuestions db lesson.id).map (fun q => q.id)).Nodup) :
    ∃ r newDetails,
      (quizTakePost db user lesson_id form now).1.results = db.results ++ [r] ∧
      (quizTakePost db user lesson_id form now).1.details = db.details ++ newDetails ∧
      r.score = (lessonQuestions db lesson.id).countP
        (answeredCorrectly db.choices form) ∧
      r.total_questions = (lessonQuestions db lesson.id).length ∧
      (∀ q ∈ lessonQuestions db lesson.id,
        (∀ c, answeredChoice db.choices form q = some c →
          ∃ d, newDetails.filter (fun d => d.question_id == q.id) = [d] ∧
            d.choice_id = c.id ∧ d.is_correct = c.is_correct ∧ d.result_id = r.id) ∧
        (answeredChoice db.choices form q = none →
          newDetails.filter (fun d => d.question_id == q.id) = [])) := by
  have hcond : (user.role != "admin" && (db.enrollments.find?
      (fun e => e.user_id == user.id && e.course_id == lesson.course_id)).isNone)
        = false := by
    rcases hauth with h | h
    · simp [h]
    · obtain ⟨e, hee⟩ := Option.isSome_iff_exists.mp h
      simp [hee]
  have hempty : (lessonQuestions db lesson.id).isEmpty = false := by
    cases hq : lessonQuestions db lesson.id with
    | nil => exact absurd hq hne
    | cons a l => simp
  have hres : (quizTakePost db user lesson_id form now).1.results
      = db.results ++ [⟨db.nextResultId, user.id, lesson.id,
          (gradeLoop db.choices form db.nextResultId db.nextDetailId
            (lessonQuestions db lesson.id)).1,
          (lessonQuestions db lesson.id).length, now⟩] := by
    simp only [quizTakePost, hl, hcond, Bool.false_eq_true, if_false, hempty]
  have hdet : (quizTakePost db user lesson_id form now).1.details
      = db.details ++ (gradeLoop db.choices form db.nextResultId db.nextDetailId
          (lessonQuestions db lesson.id)).2.1 := by
    simp only [quizTakePost, hl, hcond, Bool.false_eq_true, if_false, hempty]
  refine ⟨⟨db.nextResultId, user.id, lesson.id,
      (gradeLoop db.choices form db.nextResultId db.nextDetailId
        (lessonQuestions db lesson.id)).1,
      (lessonQuestions db lesson.id).length, now⟩,
    (gradeLoop db.choices form db.nextResultId db.nextDetailId
      (lessonQuestions db lesson.id)).2.1,
    hres, hdet, gradeLoop_score db.choices form db.nextResultId _ _, rfl, ?_⟩
  intro q hq
  constructor
  · intro c hac
    have hlen : (((gradeLoop db.choices form db.nextResultId db.nextDetailId
        (lessonQuestions db lesson.id)).2.1).filter
          (fun d => d.question_id == q.id)).length = 1 := by
      rw [gradeLoop_details_per_question, filter_id_singleton hnodup hq]
      simp [List.countP_cons, hac]
    obtain ⟨d, hd⟩ := List.length_eq_one.mp hlen
    have hdfil : d ∈ ((gradeLoop db.choices form db.nextResultId db.nextDetailId
        (lessonQuestions db lesson.id)).2.1).filter
          (fun d => d.question_id == q.id) := by
      rw [hd]; simp
    have hdmem := (List.mem_filter.mp hdfil).1
    have hdq : d.question_id = q.id := by
      have := (List.mem_filter.mp hdfil).2
      simpa using this
    obtain ⟨q', hq', c', hac', hrid, hqid, hcid, hic⟩ :=
      gradeLoop_details_mem db.choices form db.nextResultId _ _ d hdmem
    have hqq : q' = q :=
      List.inj_on_of_nodup_map hnodup hq' hq (by rw [← hqid, hdq])
    subst hqq
    rw [hac] at hac'
    cases hac'
    exact ⟨d, hd, hcid, hic, hrid⟩
  · intro hac
    have hlen : (((gradeLoop db.choices form db.nextResultId db.nextDetailId
        (lessonQuestions db lesson.id)).2.1).filter
          (fun d => d.question_id == q.id)).length = 0 := by
      rw [gradeLoop_details_per_question, filter_id_singleton hnodup hq]
      simp [List.countP_cons, hac]
    exact List.length_eq_zero.mp hlen

lemma quizTakePost_effect (db : Db) (user : User) (lesson : Lesson)
    (lesson_id : Nat) (form : List (String × String)) (now : Int)
    (hl : db.lessons.find? (fun l => l.id == lesson_id) = some lesson)
    (hcond : (user.role != "admin" && (db.enrollments.find?
      (fun e => e.user_id == user.id && e.course_id == lesson.course_id)).isNone)
        = false)
    (hempty : (lessonQuestions db lesson.id).isEmpty = false) :
    (quizTakePost db user lesson_id form now).1.results
      = db.results ++ [⟨db.nextResultId, user.id, lesson.id,
          (gradeLoop db.choices form db.nextResultId db.nextDetailId
            (lessonQuestions db lesson.id)).1,
          (lessonQuestions db lesson.id).length, now⟩] ∧
    (quizTakePost db user lesson_id form now).1.details
      = db.details ++ (gradeLoop db.choices form db.nextResultId db.nextDetailId
          (lessonQuestions db lesson.id)).2.1 := by
  constructor <;>
    simp only [quizTakePost, hl, hcond, Bool.false_eq_true, if_false, hempty]

/-- C10: a submitted answer whose value does not parse as an integer, or
parses to an integer that is no stored `QuizChoice` id, is treated exactly
like an unanswered question — no `QuizResultDetail` row for it and no
contribution to the correct count — and consequently the persisted
`score` and the number of appended detail rows are each at most
`total_questions`. -/
theorem C10_malformed_answer_like_unanswered (db : Db) (user : User)
    (lesson : Lesson) (lesson_id : Nat) (form : List (String × String))
    (now : Int)
    (hl : db.lessons.find? (fun l => l.id == lesson_id) = some lesson)
    (hauth : user.role = "admin" ∨ (db.enrollments.find?
      (fun e => e.user_id == user.id && e.course_id == lesson.course_id)).isSome)
    (hne : lessonQuestions db lesson.id ≠ [])
    (hnodup : ((lessonQuestions db lesson.id).map (fun q => q.id)).Nodup) :
    ∃ r newDetails,
      (quizTakePost db user lesson_id form now).1.results = db.results ++ [r] ∧
      (quizTakePost db user lesson_id form now).1.details = db.details ++ newDetails ∧
      (∀ q ∈ lessonQuestions db lesson.id, ∀ s,
        formGet form ("q_" ++ toString q.id) = some s →
        (pyInt s = none ∨ (∀ n, pyInt s = some n →
            db.choices.find? (fun c => ((c.id : Int)) == n) = none)) →
        newDetails.filter (fun d => d.question_id == q.id) = [] ∧
          answeredCorrectly db.choices form q = false) ∧
      r.score ≤ r.total_questions ∧
      newDetails.length ≤ r.total_questions := by
  have hcond : (user.role != "admin" && (db.enrollments.find?
      (fun e => e.user_id == user.id && e.course_id == lesson.course_id)).isNone)
        = false := by
    rcases hauth with h | h
    · simp [h]
    · obtain ⟨e, hee⟩ := Option.isSome_iff_exists.mp h
      simp [hee]
  have hempty : (lessonQuestions db lesson.id).isEmpty = false := by
    cases hq : lessonQuestions db lesson.id with
    | nil => exact absurd hq hne
    | cons a l => simp
  obtain ⟨hres, hdet⟩ :=
    quizTakePost_effect db user lesson lesson_id form now hl hcond hempty
  refine ⟨_, _, hres, hdet, ?_, ?_, ?_⟩
  · intro q hq s hs hmal
    have hnone : answeredChoice db.choices form q = none := by
      unfold answeredChoice
      rw [hs]
      by_cases hse : (s == "") = true
      · simp [hse]
      · rcases hmal with hp | hp
        · simp [hse, hp]
        · cases hpi : pyInt s with
          | none => simp [hse, hpi]
          | some n => simp [hse, hpi, hp n hpi]
    constructor
    · have hlen : (((gradeLoop db.choices form db.nextResultId db.nextDetailId
          (lessonQuestions db lesson.id)).2.1).filter
            (fun d => d.question_id == q.id)).length = 0 := by
        rw [gradeLoop_details_per_question, filter_id_singleton hnodup hq]
        simp [List.countP_cons, hnone]
      exact List.length_eq_zero.mp hlen
    · unfold answeredCorrectly
      rw [hnone]
  · rw [gradeLoop_score]
    exact List.countP_le_length _
  · rw [gradeLoop_details_length]
    exact List.countP_le_length _

/-- C2, amended: the admin role bypasses the enrollment check for
quiz-taking only — `complete_lesson` checks enrollment for every role, so
any user, admin included, without an `Enrollment` row for the owning
course is rejected with no write when marking a lesson completed, while a
non-admin without an enrollment is rejected with no write when submitting
a quiz. -/
theorem C2_enrollment_gate (db : Db) (user : User) (lesson : Lesson)
    (lesson_id : Nat) (form : List (String × String)) (now t : Int)
    (hl : db.lessons.find? (fun l => l.id == lesson_id) = some lesson) :
    (user.role = "admin" →
      ∀ cid, (quizTakePost db user lesson_id form now).2
        ≠ QuizTakeOutcome.notEnrolled cid) ∧
    ((db.enrollments.find?
        (fun e => e.user_id == user.id && e.course_id == lesson.course_id)) = none →
      completeLesson db user lesson_id t = (db, .redirectCourse lesson.course_id)) ∧
    (user.role ≠ "admin" →
      (db.enrollments.find?
        (fun e => e.user_id == user.id && e.course_id == lesson.course_id)) = none →
      quizTakePost db user lesson_id form now = (db, .notEnrolled lesson.course_id)) := by
  refine ⟨?_, ?_, ?_⟩
  · intro hadmin cid
    have hcond : (user.role != "admin" && (db.enrollments.find?
        (fun e => e.user_id == user.id && e.course_id == lesson.course_id)).isNone)
          = false := by simp [hadmin]
    cases hq : (lessonQuestions db lesson.id).isEmpty with
    | true =>
      simp only [quizTakePost, hl, hcond, Bool.false_eq_true, if_false, hq]
      simp
    | false =>
      simp only [quizTakePost, hl, hcond, Bool.false_eq_true, if_false, hq]
      simp
  · intro hnone
    simp only [completeLesson, hl, hnone]
  · intro hrole hnone
    have hcond : (user.role != "admin" && (db.enrollments.find?
        (fun e => e.user_id == user.id && e.course_id == lesson.course_id)).isNone)
          = true := by simp [hrole, hnone]
    simp only [quizTakePost, hl, hcond, if_true]

/-- A small concrete store for witnesses and counterexamples: course 1
with lesson 1, quiz questions 1 and 2 on that lesson (question 1 has
correct choice 1 and incorrect choice 2; question 2 has correct choice 3),
and user 7 enrolled in the course. -/
def wDb : Db :=
  ⟨[⟨1⟩], [⟨1, 1, 1⟩], [⟨1, 7, 1⟩], [],
   [⟨1, 1, 1⟩, ⟨2, 1, 2⟩],
   [⟨1, 1, "A", true⟩, ⟨2, 1, "B", false⟩, ⟨3, 2, "C", true⟩],
   [], [], 1, 1, 1⟩

/-- Enrolled student (user 7). -/
def wStudent : User := ⟨7, "student", true⟩

/-- Admin (user 9), holding no enrollment. -/
def wAdmin : User := ⟨9, "admin", true⟩

/-- Unenrolled student (user 8). -/
def wOutsider : User := ⟨8, "student", true⟩

/-- Counterexample to C2 as stated: the claim asserts an admin who is not
enrolled in the owning course can still mark a lesson completed. In the
code, `complete_lesson` checks enrollment with no role test: the
unenrolled admin (user 9) is redirected away and the store is returned
unchanged — no `LessonProgress` row is written. -/
theorem C2_counterexample :
    completeLesson wDb wAdmin 1 0 = (wDb, .redirectCourse 1) ∧
    (completeLesson wDb wAdmin 1 0).1.progresses = [] := by
  constructor
  · decide
  · decide

/-- Witness for C4: the enrolled student (user 7) completes lesson 1 at
time 1000 on the empty-progress store; the hypotheses hold and exactly one
completed `LessonProgress` row for (7, 1) results, stamped 1000. -/
theorem C4_lesson_progress_unique_witness :
    (wDb.enrollments.find? (fun e => e.user_id == 7 && e.course_id == 1)).isSome ∧
    (∃ p, progressRowsFor (completeLesson wDb wStudent 1 1000).1 7 1 = [p] ∧
      p.is_completed = true ∧ p.completed_at = some 1000 ∧
      p.user_id = 7 ∧ p.lesson_id = 1) := by
  constructor
  · decide
  · exact (C4_lesson_progress_unique wDb wStudent ⟨1, 1, 1⟩ 1 1000 (by decide)
      (by decide) (fun uid lid => by simp [progressRowsFor, wDb])).1

/-- Witness for C1: user 7 submits the lesson-1 quiz answering question 1
with its correct choice 1 and leaving question 2 unanswered; the
hypotheses hold and exactly one `QuizResult` row is appended. -/
theorem C1_quiz_take_scoring_witness :
    lessonQuestions wDb 1 ≠ [] ∧
    (quizTakePost wDb wStudent 1 [("q_1", "1")] 0).1.results.length = 1 := by
  constructor
  · decide
  · obtain ⟨r, nd, hr, _⟩ := C1_quiz_take_scoring wDb wStudent ⟨1, 1, 1⟩ 1
      [("q_1", "1")] 0 (by decide) (Or.inr (by decide)) (by decide) (by decide)
    rw [hr]
    simp [wDb]

/-- Witness for the amended C2: the unenrolled admin (user 9) is never
rejected by the quiz-take enrollment gate, while the unenrolled student
(user 8) is rejected with no write. -/
theorem C2_enrollment_gate_witness :
    wDb.lessons.find? (fun l => l.id == 1) = some ⟨1, 1, 1⟩ ∧
    (∀ cid, (quizTakePost wDb wAdmin 1 [] 0).2 ≠ QuizTakeOutcome.notEnrolled cid) ∧
    quizTakePost wDb wOutsider 1 [] 0 = (wDb, .notEnrolled 1) := by
  refine ⟨by decide, ?_, ?_⟩
  · exact (C2_enrollment_gate wDb wAdmin ⟨1, 1, 1⟩ 1 [] 0 0 (by decide)).1 rfl
  · exact (C2_enrollment_gate wDb wOutsider ⟨1, 1, 1⟩ 1 [] 0 0 (by decide)).2.2
      (by decide) (by decide)

/-- Witness for C10: user 7 submits "abc" (no integer) for question 1 and
"99" (no stored choice) for question 2; neither yields a detail row. -/
theorem C10_malformed_answer_witness :
    pyInt "abc" = none ∧
    (∃ newDetails,
      (quizTakePost wDb wStudent 1 [("q_1", "abc"), ("q_2", "99")] 0).1.details
        = wDb.details ++ newDetails ∧
      newDetails.filter (fun d => d.question_id == 1) = []) := by
  refine ⟨by decide, ?_⟩
  obtain ⟨r, nd, hres, hdet, hq, hsc, hlen⟩ := C10_malformed_answer_like_unanswered
    wDb wStudent ⟨1, 1, 1⟩ 1 [("q_1", "abc"), ("q_2", "99")] 0
    (by decide) (Or.inr (by decide)) (by decide) (by decide)
  refine ⟨nd, hdet, ?_⟩
  exact (hq ⟨1, 1, 1⟩ (by decide) "abc" (by decide) (Or.inl (by decide))).1

/-- `total_lessons` in `_build_progress_map`:
`Lesson.query.filter_by(course_id=course.id).count()`. -/
def courseTotalLessons (db : Db) (cid : Nat) : Nat :=
  (db.lessons.filter (fun l => l.course_id == cid)).length

/-- `completed_count` in `_build_progress_map`: the count over the join of
`LessonProgress` with `Lesson` on `LessonProgress.lesson_id == Lesson.id`,
filtered by the course, the user and `is_completed IS TRUE` — i.e. the
number of matching (progress row, lesson row) pairs. -/
def courseCompletedCount (db : Db) (uid cid : Nat) : Nat :=
  ((db.progresses.filter (fun p => p.user_id == uid && p.is_completed)).map
    (fun p => (db.lessons.filter
      (fun l => l.id == p.lesson_id && l.course_id == cid)).length)).sum

/-- One value of the progress map built by `_build_progress_map`. -/
structure ProgressEntry where
  completed : Nat
  total : Nat
  percent : Nat
  is_completed : Bool
deriving DecidableEq

/-- `main._build_progress_map` (src/app/main.py lines 41-80): empty for an
unauthenticated user; otherwise one entry per course keyed by its id (the
Python dict is modelled as the association list in course order):
`{0, 0, 0, False}` when the course has no lessons, else completed count,
total, `int(completed / total * 100)` (embedded as exact floor division)
and `is_completed = (completed == total)`. -/
def buildProgressMap (db : Db) (courses : List Course) (user : User) :
    List (Nat × ProgressEntry) :=
  if !user.is_authenticated then []
  else
    courses.map (fun course =>
      let total_lessons := courseTotalLessons db course.id
      if total_lessons == 0 then
        (course.id, ⟨0, 0, 0, false⟩)
      else
        let completed_count := courseCompletedCount db user.id course.id
        (course.id, ⟨completed_count, total_lessons,
          completed_count * 100 / total_lessons,
          completed_count == total_lessons⟩))

/-- C5: for every authenticated user, every course's progress-map entry
has `percent = floor(completed * 100 / total)` and `is_completed` true
exactly when the completed count equals the lesson total; a course with
zero lessons maps to `{0, 0, 0, false}` regardless of user; and for an
unauthenticated caller the map is empty. -/
theorem C5_progress_map (db : Db) (courses : List Course) (user : User) :
    (user.is_authenticated = false → buildProgressMap db courses user = []) ∧
    (user.is_authenticated = true → ∀ c ∈ courses,
      (courseTotalLessons db c.id = 0 →
        (c.id, (⟨0, 0, 0, false⟩ : ProgressEntry)) ∈ buildProgressMap db courses user) ∧
      (0 < courseTotalLessons db c.id →
        ∃ entry, (c.id, entry) ∈ buildProgressMap db courses user ∧
          entry.completed = courseCompletedCount db user.id c.id ∧
          entry.total = courseTotalLessons db c.id ∧
          entry.percent = entry.completed * 100 / entry.total ∧
          (entry.is_completed = true ↔ entry.completed = entry.total))) := by
  constructor
  · intro h
    simp [buildProgressMap, h]
  · intro hauth c hc
    constructor
    · intro h0
      simp only [buildProgressMap, hauth, Bool.not_true, Bool.false_eq_true, if_false]
      refine List.mem_map.mpr ⟨c, hc, ?_⟩
      simp [h0]
    · intro hpos
      have h0 : (courseTotalLessons db c.id == 0) = false := by
        simp only [beq_eq_false_iff_ne, ne_eq]
        omega
      refine ⟨⟨courseCompletedCount db user.id c.id, courseTotalLessons db c.id,
        courseCompletedCount db user.id c.id * 100 / courseTotalLessons db c.id,
        courseCompletedCount db user.id c.id == courseTotalLessons db c.id⟩, ?_, rfl, rfl, rfl, ?_⟩
      · simp only [buildProgressMap, hauth, Bool.not_true, Bool.false_eq_true, if_false]
        refine List.mem_map.mpr ⟨c, hc, ?_⟩
        simp [h0]
      · constructor
        · intro h
          exact beq_iff_eq.mp h
        · intro h
          exact beq_iff_eq.mpr h

/-- Witness for C5: for the authenticated student, a zero-lesson course
(id 2) maps to the all-zero entry, course 1 (one lesson, none completed)
gets an entry satisfying the percent formula, and an unauthenticated
caller gets the empty map. -/
theorem C5_progress_map_witness :
    buildProgressMap wDb [⟨1⟩, ⟨2⟩] ⟨7, "student", false⟩ = [] ∧
    (2, (⟨0, 0, 0, false⟩ : ProgressEntry)) ∈ buildProgressMap wDb [⟨1⟩, ⟨2⟩] wStudent ∧
    (∃ entry, (1, entry) ∈ buildProgressMap wDb [⟨1⟩, ⟨2⟩] wStudent ∧
      entry.completed = courseCompletedCount wDb 7 1 ∧
      entry.total = courseTotalLessons wDb 1 ∧
      entry.percent = entry.completed * 100 / entry.total ∧
      (entry.is_completed = true ↔ entry.completed = entry.total)) := by
  refine ⟨?_, ?_, ?_⟩
  · exact (C5_progress_map wDb [⟨1⟩, ⟨2⟩] ⟨7, "student", false⟩).1 rfl
  · exact ((C5_progress_map wDb [⟨1⟩, ⟨2⟩] wStudent).2 rfl ⟨2⟩ (by decide)).1 (by decide)
  · exact ((C5_progress_map wDb [⟨1⟩, ⟨2⟩] wStudent).2 rfl ⟨1⟩ (by decide)).2 (by decide)

/-- Python's `date.weekday()` on day number `d` (Monday = 0); day 0,
1970-01-01, was a Thursday. -/
def weekdayOf (d : Int) : Int := (d + 3) % 7

/-- `week_completed_lessons` in `dashboard` (src/app/main.py lines
353-375): the user's completed-lesson rows with
`completed_at >= start_of_week`, where the week starts at midnight of the
Monday of `today`'s week (`today - today.weekday()` days); a NULL
`completed_at` fails the SQL comparison. -/
def weekCompletedLessons (db : Db) (uid : Nat) (today : Int) : Nat :=
  db.progresses.countP (fun p => p.user_id == uid && p.is_completed &&
    (match p.completed_at with
     | none => false
     | some ts => decide (midnight (today - weekdayOf today) ≤ ts)))

/-- The weekly-goal block of `dashboard` (src/app/main.py lines 459-471):
`weekly_goal` is the profile's `weekly_goal_lessons`, with a missing
profile or a NULL value giving 0; when positive the attainment is
`int(min(100, week_completed * 100 / weekly_goal))` (exact floor — the
numerator is multiplied before dividing), otherwise `None`, i.e. not
shown. -/
def weeklyGoalPercent (profile : Option UserProfile) (week_completed : Nat) :
    Option Nat :=
  let weekly_goal : Nat :=
    match profile with
    | none => 0
    | some pr =>
      match pr.weekly_goal_lessons with
      | none => 0
      | some g => g
  if 0 < weekly_goal then some (min 100 (week_completed * 100 / weekly_goal))
  else none

/-- The weekly-goal attainment `dashboard` displays for a user at `today`. -/
def dashboardWeeklyGoalPercent (db : Db) (uid : Nat)
    (profile : Option UserProfile) (today : Int) : Option Nat :=
  weeklyGoalPercent profile (weekCompletedLessons db uid today)

/-- C9: with a set weekly goal `g > 0` the displayed attainment equals
`min(100, floor(week_completed * 100 / g))` — never exceeding 100 — and
with no goal set (missing profile or NULL) or a goal of 0 no percentage is
computed at all (`None`, distinct from 0%). -/
theorem C9_weekly_goal (db : Db) (uid : Nat) (profile : Option UserProfile)
    (today : Int) :
    (∀ pr, profile = some pr → ∀ g, pr.weekly_goal_lessons = some g → 0 < g →
      dashboardWeeklyGoalPercent db uid profile today
        = some (min 100 (weekCompletedLessons db uid today * 100 / g)) ∧
      (∀ v, dashboardWeeklyGoalPercent db uid profile today = some v → v ≤ 100)) ∧
    ((profile = none ∨ (∃ pr, profile = some pr ∧
        (pr.weekly_goal_lessons = none ∨ pr.weekly_goal_lessons = some 0))) →
      dashboardWeeklyGoalPercent db uid profile today = none) := by
  constructor
  · intro pr hpr g hg hpos
    subst hpr
    constructor
    · simp [dashboardWeeklyGoalPercent, weeklyGoalPercent, hg, hpos]
    · intro v hv
      simp [dashboardWeeklyGoalPercent, weeklyGoalPercent, hg, hpos] at hv
      omega
  · intro h
    rcases h with h | ⟨pr, hpr, hg⟩
    · subst h
      simp [dashboardWeeklyGoalPercent, weeklyGoalPercent]
    · subst hpr
      rcases hg with hg | hg <;> simp [dashboardWeeklyGoalPercent, weeklyGoalPercent, hg]

/-- Store with three lessons completed by user 7 during the week of day
10000 (a Monday). -/
def wDbWeek : Db := { wDb with progresses :=
  [⟨1, 7, 1, true, some (midnight 10000)⟩,
   ⟨2, 7, 1, true, some (midnight 10000 + 3600)⟩,
   ⟨3, 7, 1, true, some (midnight 10000 + 7200)⟩] }

/-- Witness for C9, matching the spec's end-to-end example: a goal of 5
with 3 completions this week shows 60%, and the attainment can never
exceed 100. -/
theorem C9_weekly_goal_witness :
    (0 : Nat) < 5 ∧
    dashboardWeeklyGoalPercent wDbWeek 7 (some ⟨7, some 5⟩) 10000 = some 60 ∧
    (∀ v, dashboardWeeklyGoalPercent wDbWeek 7 (some ⟨7, some 5⟩) 10000 = some v →
      v ≤ 100) := by
  obtain ⟨h1, h2⟩ := (C9_weekly_goal wDbWeek 7 (some ⟨7, some 5⟩) 10000).1
    ⟨7, some 5⟩ rfl 5 rfl (by decide)
  refine ⟨by decide, ?_, h2⟩
  rw [h1]
  decide

/-- Gregorian leap-year rule. -/
def isLeap (y : Nat) : Bool := (y % 4 == 0 && y % 100 != 0) || y % 400 == 0

/-- Number of days in month `m` of year `y`. -/
def daysInMonth (y m : Nat) : Nat :=
  if m == 2 then (if isLeap y then 29 else 28)
  else if m == 4 || m == 6 || m == 9 || m == 11 then 30
  else 31

/-- The numeric value of a nonempty all-digit character list, else `none`. -/
def digitsToNat (cs : List Char) : Option Nat :=
  if cs ≠ [] && cs.all Char.isDigit then some (digitsVal cs) else none

/-- Day number (days since 1970-01-01) of the civil date `y-m-d`
(Hinnant's days-from-civil computation, for years ≥ 1). -/
def daysFromCivil (y m d : Nat) : Int :=
  let y' := if m ≤ 2 then y - 1 else y
  let era := y' / 400
  let yoe := y' - era * 400
  let mp := (m + 9) % 12
  let doy := (153 * mp + 2) / 5 + (d - 1)
  let doe := yoe * 365 + yoe / 4 - yoe / 100 + doy
  ((era * 146097 + doe : Int)) - 719468

/-- `datetime.strptime(s, "%Y-%m-%d").date()`: a zero-padded `YYYY-MM-DD`
string naming a real calendar date (year 1..9999, month 1..12, day within
the month) parses to its day number; anything else raises `ValueError`,
modelled as `none`. (CPython's `%m` and `%d` also accept one-digit
fields; no claim depends on such inputs.) -/
def parseYMD (s : String) : Option Int :=
  match s.toList with
  | [y1, y2, y3, y4, h1, m1, m2, h2, d1, d2] =>
    if h1 == '-' && h2 == '-' then
      match digitsToNat [y1, y2, y3, y4], digitsToNat [m1, m2],
          digitsToNat [d1, d2] with
      | some y, some m, some d =>
        if 1 ≤ y ∧ 1 ≤ m ∧ m ≤ 12 ∧ 1 ≤ d ∧ d ≤ daysInMonth y m then
          some (daysFromCivil y m d)
        else none
      | _, _, _ => none
    else none
  | _ => none

/-- The date-bound block of `history` (src/app/main.py lines 512-529): one
try/except parses `start_date_str`, then `end_date_str`; an empty string
is "no bound"; a `ValueError` from EITHER parse resets BOTH bounds to
`None` ("treat as unfiltered"). A parsed start bound is midnight of its
day; a parsed end bound is midnight of the following day (to be used with
`<`, so the end date includes its whole day). -/
def parseBounds (start_date_str end_date_str : String) :
    Option Int × Option Int :=
  match (if start_date_str == "" then some none
         else (parseYMD start_date_str).map some) with
  | none => (none, none)
  | some sd =>
    match (if end_date_str == "" then some none
           else (parseYMD end_date_str).map some) with
    | none => (none, none)
    | some ed => (sd.map (fun d => midnight d), ed.map (fun d => midnight (d + 1)))

/-- `a ≤ b` on nullable timestamps with NULL smallest, so that sorting
descending puts NULL rows last (SQLite NULL ordering). -/
def optTsLe (a b : Option Int) : Bool :=
  match a, b with
  | none, _ => true
  | some _, none => false
  | some x, some y => decide (x ≤ y)

/-- Insertion into a list kept descending by `key`. -/
def insertDesc (key : α → Option Int) (x : α) : List α → List α
  | [] => [x]
  | y :: ys =>
    if optTsLe (key y) (key x) then x :: y :: ys else y :: insertDesc key x ys

/-- `ORDER BY key DESC` as an insertion sort. -/
def sortDesc (key : α → Option Int) : List α → List α
  | [] => []
  | x :: xs => insertDesc key x (sortDesc key xs)

lemma optTsLe_total (a b : Option Int) :
    optTsLe a b = true ∨ optTsLe b a = true := by
  cases a with
  | none => exact Or.inl rfl
  | some x =>
    cases b with
    | none => exact Or.inr rfl
    | some y =>
      rcases le_total x y with h | h
      · exact Or.inl (by simp [optTsLe, h])
      · exact Or.inr (by simp [optTsLe, h])

lemma optTsLe_trans {a b c : Option Int} (h1 : optTsLe a b = true)
    (h2 : optTsLe b c = true) : optTsLe a c = true := by
  cases a with
  | none => rfl
  | some x =>
    cases b with
    | none => simp [optTsLe] at h1
    | some y =>
      cases c with
      | none => simp [optTsLe] at h2
      | some z =>
        simp only [optTsLe, decide_eq_true_eq] at h1 h2 ⊢
        exact le_trans h1 h2

lemma mem_insertDesc (key : α → Option Int) (x : α) :
    ∀ (l : List α) (a : α), a ∈ insertDesc key x l ↔ a = x ∨ a ∈ l := by
  intro l
  induction l with
  | nil => intro a; simp [insertDesc]
  | cons y ys ih =>
    intro a
    by_cases h : optTsLe (key y) (key x) = true
    · simp [insertDesc, h]
    · have h' : optTsLe (key y) (key x) = false := by simpa using h
      simp only [insertDesc, h', Bool.false_eq_true, if_false, List.mem_cons, ih a]
      tauto

lemma pairwise_insertDesc (key : α → Option Int) (x : α) :
    ∀ l : List α, l.Pairwise (fun a b => optTsLe (key b) (key a) = true) →
      (insertDesc key x l).Pairwise (fun a b => optTsLe (key b) (key a) = true) := by
  intro l
  induction l with
  | nil => intro _; simp [insertDesc]
  | cons y ys ih =>
    intro h
    rw [List.pairwise_cons] at h
    by_cases hle : optTsLe (key y) (key x) = true
    · rw [insertDesc, if_pos hle]
      rw [List.pairwise_cons]
      refine ⟨?_, List.pairwise_cons.mpr h⟩
      intro b hb
      rcases List.mem_cons.mp hb with hbe | hbm
      · rw [hbe]; exact hle
      · exact optTsLe_trans (h.1 b hbm) hle
    · have hle' : optTsLe (key y) (key x) = false := by simpa using hle
      rw [insertDesc, if_neg (by simp [hle'])]
      rw [List.pairwise_cons]
      constructor
      · intro b hb
        rcases (mem_insertDesc key x ys b).mp hb with hbx | hbm
        · rcases optTsLe_total (key b) (key y) with hx | hx
          · exact hx
          · exfalso
            rw [hbx] at hx
            simp [hle'] at hx
        · exact h.1 b hbm
      · exact ih h.2

lemma sortDesc_pairwise (key : α → Option Int) :
    ∀ l : List α,
      (sortDesc key l).Pairwise (fun a b => optTsLe (key b) (key a) = true) := by
  intro l
  induction l with
  | nil => simp [sortDesc]
  | cons x xs ih => exact pairwise_insertDesc key x (sortDesc key xs) ih

lemma mem_sortDesc (key : α → Option Int) :
    ∀ (l : List α) (a : α), a ∈ sortDesc key l ↔ a ∈ l := by
  intro l
  induction l with
  | nil => intro a; simp [sortDesc]
  | cons x xs ih =>
    intro a
    rw [sortDesc, mem_insertDesc, List.mem_cons, ih a]

/-- Row predicate of the lesson-history query in `history`
(src/app/main.py lines 531-545): the row inner-joins to its `Lesson` and
`Course`, belongs to the user, has `is_completed IS TRUE`, passes the
course filter when one is selected (`if selected_course_id:` — Python
truthiness, so a selected id of 0 applies no filter), and passes whichever
date bounds survived parsing (`completed_at >= start_dt`,
`completed_at < end_dt`; a NULL `completed_at` fails the SQL
comparisons). -/
def historyLessonPred (db : Db) (uid : Nat) (selected_course_id : Option Nat)
    (start_dt end_dt : Option Int) (p : LessonProgress) : Bool :=
  match db.lessons.find? (fun l => l.id == p.lesson_id) with
  | none => false
  | some l =>
    match db.courses.find? (fun c => c.id == l.course_id) with
    | none => false
    | some c =>
      p.user_id == uid && p.is_completed &&
      (match selected_course_id with
       | none => true
       | some 0 => true
       | some cid => c.id == cid) &&
      (match start_dt with
       | none => true
       | some sdt =>
         match p.completed_at with
         | none => false
         | some ts => decide (sdt ≤ ts)) &&
      (match end_dt with
       | none => true
       | some edt =>
         match p.completed_at with
         | none => false
         | some ts => decide (ts < edt))

/-- Row predicate of the quiz-history query in `history`
(src/app/main.py lines 554-567): inner joins to `Lesson` and `Course`,
the user's rows, the same course filter, and the surviving date bounds
applied to `taken_at`. -/
def historyQuizPred (db : Db) (uid : Nat) (selected_course_id : Option Nat)
    (start_dt end_dt : Option Int) (r : QuizResult) : Bool :=
  match db.lessons.find? (fun l => l.id == r.lesson_id) with
  | none => false
  | some l =>
    match db.courses.find? (fun c => c.id == l.course_id) with
    | none => false
    | some c =>
      r.user_id == uid &&
      (match selected_course_id with
       | none => true
       | some 0 => true
       | some cid => c.id == cid) &&
      (match start_dt with
       | none => true
       | some sdt => decide (sdt ≤ r.taken_at)) &&
      (match end_dt with
       | none => true
       | some edt => decide (r.taken_at < edt))

/-- The two result sets `history` renders. -/
structure HistoryPage where
  recent_lessons : List LessonProgress
  recent_quiz_results : List QuizResult
deriving DecidableEq

/-- `main.history` (src/app/main.py lines 498-584): parse the date bounds
(one try/except for both), then build two independent result sets —
completed-lesson rows and quiz-result rows — each filtered by the same
course/date predicates, each ordered by its own timestamp descending
(`completed_at` resp. `taken_at`) and each capped at 50 rows. -/
def history (db : Db) (user : User) (selected_course_id : Option Nat)
    (start_date_str end_date_str : String) : HistoryPage :=
  let bounds := parseBounds start_date_str end_date_str
  let recent_lessons := (sortDesc (fun p => p.completed_at)
    (db.progresses.filter
      (historyLessonPred db user.id selected_course_id bounds.1 bounds.2))).take 50
  let recent_quiz_results := (sortDesc (fun r => some r.taken_at)
    (db.results.filter
      (historyQuizPred db user.id selected_course_id bounds.1 bounds.2))).take 50
  ⟨recent_lessons, recent_quiz_results⟩

/-- C3, amended: if either supplied date string is non-empty and fails to
parse as `YYYY-MM-DD`, the single try/except drops BOTH date bounds (not
only the malformed one) and the query proceeds with no date filter; no
exception escapes. When both parse, the start bound is midnight of the
start day and the end bound is midnight of the day after the end date,
used with `<` so the end date is inclusive of its entire day. The two
result sets are independent, each sorted by its own timestamp descending
and each capped at 50 rows, and every returned row satisfies the applied
filters. -/
theorem C3_history_date_fallback (db : Db) (user : User)
    (selected_course_id : Option Nat) (s e : String) :
    (((s ≠ "" ∧ parseYMD s = none) ∨ (e ≠ "" ∧ parseYMD e = none)) →
      parseBounds s e = (none, none)) ∧
    (∀ ds de, s ≠ "" → e ≠ "" → parseYMD s = some ds → parseYMD e = some de →
      parseBounds s e = (some (midnight ds), some (midnight (de + 1)))) ∧
    (∀ de, s = "" → e ≠ "" → parseYMD e = some de →
      parseBounds s e = (none, some (midnight (de + 1)))) ∧
    (∀ ds, s ≠ "" → e = "" → parseYMD s = some ds →
      parseBounds s e = (some (midnight ds), none)) ∧
    (s = "" → e = "" → parseBounds s e = (none, none)) ∧
    ((history db user selected_course_id s e).recent_lessons.length ≤ 50 ∧
      (history db user selected_course_id s e).recent_lessons.Pairwise
        (fun a b => optTsLe b.completed_at a.completed_at = true) ∧
      (∀ p ∈ (history db user selected_course_id s e).recent_lessons,
        historyLessonPred db user.id selected_course_id
          (parseBounds s e).1 (parseBounds s e).2 p = true)) ∧
    ((history db user selected_course_id s e).recent_quiz_results.length ≤ 50 ∧
      (history db user selected_course_id s e).recent_quiz_results.Pairwise
        (fun a b => optTsLe (some b.taken_at) (some a.taken_at) = true) ∧
      (∀ r ∈ (history db user selected_course_id s e).recent_quiz_results,
        historyQuizPred db user.id selected_course_id
          (parseBounds s e).1 (parseBounds s e).2 r = true)) ∧
    (∀ d ts, dateOf ts = d → midnight d ≤ ts ∧ ts < midnight (d + 1)) := by
  refine ⟨?_, ?_, ?_, ?_, ?_, ⟨?_, ?_, ?_⟩, ⟨?_, ?_, ?_⟩, ?_⟩
  · intro h
    rcases h with ⟨hs, hps⟩ | ⟨he, hpe⟩
    · have hs' : (s == "") = false := by simp [hs]
      simp [parseBounds, hs', hps]
    · have he' : (e == "") = false := by simp [he]
      by_cases hs : s = ""
      · have hs' : (s == "") = true := by simp [hs]
        simp [parseBounds, hs', he', hpe]
      · have hs' : (s == "") = false := by simp [hs]
        cases hps : parseYMD s with
        | none => simp [parseBounds, hs', hps]
        | some ds => simp [parseBounds, hs', hps, he', hpe]
  · intro ds de hs he hps hpe
    have hs' : (s == "") = false := by simp [hs]
    have he' : (e == "") = false := by simp [he]
    simp [parseBounds, hs', he', hps, hpe]
  · intro de hs he hpe
    have hs' : (s == "") = true := by simp [hs]
    have he' : (e == "") = false := by simp [he]
    simp [parseBounds, hs', he', hpe]
  · intro ds hs he hps
    have hs' : (s == "") = false := by simp [hs]
    have he' : (e == "") = true := by simp [he]
    simp [parseBounds, hs', he', hps]
  · intro hs he
    have hs' : (s == "") = true := by simp [hs]
    have he' : (e == "") = true := by simp [he]
    simp [parseBounds, hs', he']
  · simp only [history]
    simp [List.length_take]
  · simp only [history]
    exact (sortDesc_pairwise (fun q : LessonProgress => q.completed_at) _).sublist
      (List.take_sublist _ _)
  · intro p hp
    simp only [history] at hp
    have h1 : p ∈ sortDesc (fun q : LessonProgress => q.completed_at)
        (db.progresses.filter (historyLessonPred db user.id selected_course_id
          (parseBounds s e).1 (parseBounds s e).2)) :=
      (List.take_sublist _ _).subset hp
    have h2 := (mem_sortDesc _ _ _).mp h1
    exact (List.mem_filter.mp h2).2
  · simp only [history]
    simp [List.length_take]
  · simp only [history]
    exact (sortDesc_pairwise (fun q : QuizResult => some q.taken_at) _).sublist
      (List.take_sublist _ _)
  · intro r hr
    simp only [history] at hr
    have h1 : r ∈ sortDesc (fun q : QuizResult => some q.taken_at)
        (db.results.filter (historyQuizPred db user.id selected_course_id
          (parseBounds s e).1 (parseBounds s e).2)) :=
      (List.take_sublist _ _).subset hr
    have h2 := (mem_sortDesc _ _ _).mp h1
    exact (List.mem_filter.mp h2).2
  · intro d ts h
    simp only [dateOf] at h
    simp only [midnight]
    omega

/-- Store for the C3 counterexample and witness: user 7's single completed
lesson has timestamp 0 (on 1970-01-01), far before 2024. -/
def wDbHist : Db := { wDb with progresses := [⟨1, 7, 1, true, some 0⟩] }

/-- Counterexample to C3 as stated: with well-formed
`start_date = "2024-01-01"` (day 19723) and malformed
`end_date = "not-a-date"`, the claim says only the end bound is dropped
and the start filter still applies, which would exclude the 1970
completion; the code's single try/except resets both bounds, and the
returned lesson history contains the row whose timestamp violates the
start bound. -/
theorem C3_counterexample :
    parseYMD "2024-01-01" = some 19723 ∧
    parseYMD "not-a-date" = none ∧
    (⟨1, 7, 1, true, some 0⟩ : LessonProgress) ∈
      (history wDbHist wStudent none "2024-01-01" "not-a-date").recent_lessons ∧
    ¬ (midnight 19723 ≤ (0 : Int)) := by
  refine ⟨by decide, by decide, by decide, by decide⟩

/-- Witness for the amended C3: the malformed end date drops both bounds
and the capped lesson list stays within 50 rows. -/
theorem C3_history_date_fallback_witness :
    ("not-a-date" ≠ "" ∧ parseYMD "not-a-date" = none) ∧
    parseBounds "2024-01-01" "not-a-date" = (none, none) ∧
    (history wDbHist wStudent none "2024-01-01" "not-a-date").recent_lessons.length
      ≤ 50 := by
  have h := C3_history_date_fallback wDbHist wStudent none "2024-01-01" "not-a-date"
  refine ⟨⟨by decide, by decide⟩, ?_, ?_⟩
  · exact h.1 (Or.inr ⟨by decide, by decide⟩)
  · exact h.2.2.2.2.2.1.1

lemma countP_congrB {p q : α → Bool} {l : List α} (h : ∀ a ∈ l, p a = q a) :
    l.countP p = l.countP q := by
  induction l with
  | nil => rfl
  | cons x xs ih =>
    rw [List.countP_cons, List.countP_cons, h x (by simp),
      ih (fun a ha => h a (by simp [ha]))]

lemma sum_map_addB (f g : α → Nat) :
    ∀ l : List α, (l.map (fun a => f a + g a)).sum = (l.map f).sum + (l.map g).sum := by
  intro l
  induction l with
  | nil => rfl
  | cons x xs ih =>
    simp only [List.map_cons, List.sum_cons, ih]
    omega

/-- `recent_progress` in `dashboard` (src/app/main.py lines 393-398): the
user's completed-lesson rows with `completed_at >= start_chart`, midnight
of `today - 6`; a NULL `completed_at` fails the SQL comparison. -/
def chartWindowRows (db : Db) (uid : Nat) (today : Int) : List LessonProgress :=
  db.progresses.filter (fun p => p.user_id == uid && p.is_completed &&
    (match p.completed_at with
     | none => false
     | some ts => decide (midnight (today - 6) ≤ ts)))

/-- `counts_by_date[d]` in `dashboard` (lines 400-407): among the window
rows, those with a non-NULL `completed_at` whose date is neither before
`today - 6` nor after `today` and falls on day `d` (the Python dict is a
multiset counter; its entry for `d` is this count). -/
def countsByDate (db : Db) (uid : Nat) (today d : Int) : Nat :=
  (chartWindowRows db uid today).countP (fun p =>
    match p.completed_at with
    | none => false
    | some ts =>
      (!(decide (dateOf ts < today - 6) || decide (today < dateOf ts))) &&
        (dateOf ts == d))

/-- `chart_values` in `dashboard` (lines 409-415): for `i` from 6 down to
0, the count for day `today - i` — seven values, oldest day first (the
`j`-th value is day `today - (6 - j)`). -/
def chartValues (db : Db) (uid : Nat) (today : Int) : List Nat :=
  (List.range 7).map
    (fun (j : Nat) => countsByDate db uid today (today - (6 - (j : Int))))

/-- Whether row `p` is a completion by `uid` on calendar day `d`. -/
def completionOn (uid : Nat) (d : Int) (p : LessonProgress) : Bool :=
  p.user_id == uid && p.is_completed &&
    (match p.completed_at with
     | none => false
     | some ts => dateOf ts == d)

/-- Whether row `p` is a completion by `uid` within the seven calendar
days ending at `today`. -/
def completionInWindow (uid : Nat) (today : Int) (p : LessonProgress) : Bool :=
  p.user_id == uid && p.is_completed &&
    (match p.completed_at with
     | none => false
     | some ts => decide (today - 6 ≤ dateOf ts) && decide (dateOf ts ≤ today))

lemma countsByDate_eq (db : Db) (uid : Nat) (today d : Int)
    (h1 : today - 6 ≤ d) (h2 : d ≤ today) :
    countsByDate db uid today d = db.progresses.countP (completionOn uid d) := by
  unfold countsByDate chartWindowRows
  rw [List.countP_filter]
  apply countP_congrB
  intro p _
  cases hca : p.completed_at with
  | none => simp [completionOn, hca]
  | some ts =>
    cases hbe : (dateOf ts == d) with
    | false =>
      simp [completionOn, hca, hbe]
    | true =>
      have hd : dateOf ts = d := by simpa using hbe
      have hA : midnight (today - 6) ≤ ts := by
        simp only [midnight]
        simp only [dateOf] at hd
        omega
      have hB : ¬ (dateOf ts < today - 6) := by
        simp only [dateOf] at hd ⊢
        omega
      have hC : ¬ (today < dateOf ts) := by
        simp only [dateOf] at hd ⊢
        omega
      simp [completionOn, hca, hbe, hA, hB, hC]

lemma window_indicator (uid : Nat) (today : Int) (p : LessonProgress) :
    ((List.range 7).map
      (fun (j : Nat) =>
        if completionOn uid (today - (6 - (j : Int))) p then 1 else 0)).sum
      = (if completionInWindow uid today p then 1 else 0) := by
  have hr : List.range 7 = [0, 1, 2, 3, 4, 5, 6] := rfl
  rw [hr]
  simp only [List.map_cons, List.map_nil, List.sum_cons, List.sum_nil]
  cases hu : (p.user_id == uid) with
  | false => simp [completionOn, completionInWindow, hu]
  | true =>
    cases hc : p.is_completed with
    | false => simp [completionOn, completionInWindow, hu, hc]
    | true =>
      cases hca : p.completed_at with
      | none => simp [completionOn, completionInWindow, hu, hc, hca]
      | some ts =>
        simp only [completionOn, completionInWindow, hu, hc, hca, Bool.true_and,
          beq_iff_eq, Bool.and_eq_true, decide_eq_true_eq]
        split_ifs <;> omega

/-- C7: the seven-day histogram always has exactly 7 entries; the `j`-th
entry (oldest first) is the count of the user's completed-lesson events
whose `completed_at` falls on the exact calendar day `today - (6 - j)`
(0 when none); and the entries sum to the user's total completions in the
seven-day window. -/
theorem C7_seven_day_histogram (db : Db) (uid : Nat) (today : Int) :
    (chartValues db uid today).length = 7 ∧
    (∀ j : Nat, j < 7 → (chartValues db uid today).getD j 0
      = db.progresses.countP (completionOn uid (today - (6 - (j : Int))))) ∧
    (chartValues db uid today).sum
      = db.progresses.countP (completionInWindow uid today) := by
  refine ⟨by unfold chartValues; rw [List.length_map, List.length_range], ?_, ?_⟩
  · intro j hj
    have hget : (chartValues db uid today).getD j 0
        = countsByDate db uid today (today - (6 - (j : Int))) := by
      unfold chartValues
      rw [List.getD_eq_getElem?_getD, List.getElem?_map, List.getElem?_range hj]
      rfl
    rw [hget]
    apply countsByDate_eq
    · omega
    · omega
  · have hcv : chartValues db uid today
        = (List.range 7).map
            (fun (j : Nat) =>
              db.progresses.countP (completionOn uid (today - (6 - (j : Int))))) := by
      unfold chartValues
      apply List.map_congr_left
      intro j hj
      have hj7 : j < 7 := List.mem_range.mp hj
      apply countsByDate_eq
      · omega
      · omega
    rw [hcv]
    induction db.progresses with
    | nil => simp
    | cons p l ih =>
      have hcons : ∀ d : Int, (p :: l).countP (completionOn uid d)
          = l.countP (completionOn uid d) + (if completionOn uid d p then 1 else 0) :=
        fun d => List.countP_cons _ _ _
      have hconsW : (p :: l).countP (completionInWindow uid today)
          = l.countP (completionInWindow uid today)
            + (if completionInWindow uid today p then 1 else 0) :=
        List.countP_cons _ _ _
      have hsplit : (List.range 7).map
            (fun (j : Nat) =>
              (p :: l).countP (completionOn uid (today - (6 - (j : Int)))))
          = (List.range 7).map
            (fun (j : Nat) =>
              l.countP (completionOn uid (today - (6 - (j : Int))))
              + (if completionOn uid (today - (6 - (j : Int))) p then 1 else 0)) :=
        List.map_congr_left (fun j _ => hcons _)
      rw [hsplit, sum_map_addB, ih, hconsW, window_indicator]

/-- Witness for C7: for user 7 with three completions on day 10000, the
histogram at `today = 10000` has 7 entries, its newest entry counts that
day's completions, and the entries sum to the window total. -/
theorem C7_seven_day_histogram_witness :
    (chartValues wDbWeek 7 10000).length = 7 ∧
    (chartValues wDbWeek 7 10000).getD 6 0
      = wDbWeek.progresses.countP (completionOn 7 (10000 - (6 - (6 : Int)))) ∧
    (chartValues wDbWeek 7 10000).sum
      = wDbWeek.progresses.countP (completionInWindow 7 10000) := by
  obtain ⟨h1, h2, h3⟩ := C7_seven_day_histogram wDbWeek 7 10000
  exact ⟨h1, h2 6 (by decide), h3⟩

/-- `learned_dates` in `dashboard` (src/app/main.py lines 417-436): the
days with at least one of the user's completed lessons, drawn only from
rows with `completed_at >= streak_start` — midnight of `today - 59`, the
trailing 60 days (a NULL `completed_at` fails the comparison; the Python
set is modelled as the list of dates with multiplicity — the streak walk
only tests membership). -/
def learnedDates (db : Db) (uid : Nat) (today : Int) : List Int :=
  (db.progresses.filter (fun p => p.user_id == uid && p.is_completed &&
    (match p.completed_at with
     | none => false
     | some ts => decide (midnight (today - 59) ≤ ts)))).filterMap
    (fun p => p.completed_at.map dateOf)

/-- The `while d in learned_dates` walk of `dashboard` (lines 438-443),
with explicit fuel; `streakWalk_le` shows `dates.length + 1` fuel never
runs out. -/
def streakWalk (dates : List Int) : Nat → Int → Nat
  | 0, _ => 0
  | fuel + 1, d => if d ∈ dates then streakWalk dates fuel (d - 1) + 1 else 0

/-- `current_streak_days` in `dashboard`: count consecutive days walking
backward from `today` while the day is in `learned_dates`. -/
def currentStreakDays (db : Db) (uid : Nat) (today : Int) : Nat :=
  streakWalk (learnedDates db uid today) ((learnedDates db uid today).length + 1)
    today

/-- A completion by `uid` on day `d` that the 60-day streak window
retains. -/
def hasWindowedCompletion (db : Db) (uid : Nat) (today d : Int) : Prop :=
  ∃ p ∈ db.progresses, p.user_id = uid ∧ p.is_completed = true ∧
    ∃ ts, p.completed_at = some ts ∧ midnight (today - 59) ≤ ts ∧ dateOf ts = d

/-- Any completion by `uid` on day `d` (no window). -/
def hasCompletionOn (db : Db) (uid : Nat) (d : Int) : Bool :=
  db.progresses.any (completionOn uid d)

lemma streakWalk_mem (dates : List Int) :
    ∀ (fuel : Nat) (d : Int) (i : Nat),
      i < streakWalk dates fuel d → (d - (i : Int)) ∈ dates := by
  intro fuel
  induction fuel with
  | zero => intro d i hi; simp [streakWalk] at hi
  | succ fuel ih =>
    intro d i hi
    by_cases hmem : d ∈ dates
    · rw [streakWalk, if_pos hmem] at hi
      cases i with
      | zero => simpa using hmem
      | succ i =>
        have hi' : i < streakWalk dates fuel (d - 1) := by omega
        have := ih (d - 1) i hi'
        have heq : d - ((i + 1 : Nat) : Int) = d - 1 - (i : Int) := by
          push_cast
          omega
        rw [heq]
        exact this
    · rw [streakWalk, if_neg hmem] at hi
      omega

lemma streakWalk_stop (dates : List Int) :
    ∀ (fuel : Nat) (d : Int), streakWalk dates fuel d < fuel →
      (d - (streakWalk dates fuel d : Int)) ∉ dates := by
  intro fuel
  induction fuel with
  | zero => intro d h; omega
  | succ fuel ih =>
    intro d h
    by_cases hmem : d ∈ dates
    · rw [streakWalk, if_pos hmem] at h ⊢
      have h' : streakWalk dates fuel (d - 1) < fuel := by omega
      have := ih (d - 1) h'
      have heq : d - ((streakWalk dates fuel (d - 1) + 1 : Nat) : Int)
          = d - 1 - (streakWalk dates fuel (d - 1) : Int) := by
        push_cast
        omega
      rw [heq]
      exact this
    · rw [streakWalk, if_neg hmem]
      simpa using hmem

lemma streakWalk_le (dates : List Int) (fuel : Nat) (d : Int) :
    streakWalk dates fuel d ≤ dates.length := by
  have hsub : ((List.range (streakWalk dates fuel d)).map
      (fun i : Nat => d - (i : Int))) ⊆ dates := by
    intro x hx
    obtain ⟨i, hi, hxi⟩ := List.mem_map.mp hx
    rw [← hxi]
    exact streakWalk_mem dates fuel d i (List.mem_range.mp hi)
  have hinj : Function.Injective (fun i : Nat => d - (i : Int)) := by
    intro a b hab
    simp only at hab
    omega
  have hnd : ((List.range (streakWalk dates fuel d)).map
      (fun i : Nat => d - (i : Int))).Nodup :=
    (List.nodup_range _).map hinj
  have hlen := (hnd.subperm hsub).length_le
  rw [List.length_map, List.length_range] at hlen
  exact hlen

lemma mem_learnedDates (db : Db) (uid : Nat) (today d : Int) :
    d ∈ learnedDates db uid today ↔ hasWindowedCompletion db uid today d := by
  constructor
  · intro hd
    obtain ⟨p, hp, hmap⟩ := List.mem_filterMap.mp hd
    obtain ⟨hpmem, hpcond⟩ := List.mem_filter.mp hp
    cases hca : p.completed_at with
    | none => rw [hca] at hmap; simp at hmap
    | some ts =>
      rw [hca] at hmap
      simp only [Option.map_some', Option.some.injEq] at hmap
      rw [hca] at hpcond
      simp only [Bool.and_eq_true, beq_iff_eq, decide_eq_true_eq] at hpcond
      exact ⟨p, hpmem, hpcond.1.1, hpcond.1.2, ts, hca, hpcond.2, hmap⟩
  · rintro ⟨p, hp, hu, hc, ts, hca, hwin, hdate⟩
    apply List.mem_filterMap.mpr
    refine ⟨p, List.mem_filter.mpr ⟨hp, ?_⟩, ?_⟩
    · simp [hu, hc, hca, hwin]
    · simp [hca, hdate]

/-- C8, amended: the current streak counts consecutive calendar days
backward from `now`'s date on which the user has at least one completed
lesson *within the trailing 60-day window the code queries*
(`completed_at >= midnight (today - 59)`): every day of the streak has
such a windowed completion and the walk stops at the first day without
one. In particular the streak is 0 whenever `now`'s date has no
completion at all — regardless of prior-day activity — since a completion
dated today always lies inside the window. -/
theorem C8_current_streak (db : Db) (uid : Nat) (today : Int) :
    (∀ i : Nat, i < currentStreakDays db uid today →
      hasWindowedCompletion db uid today (today - (i : Int))) ∧
    ¬ hasWindowedCompletion db uid today
        (today - (currentStreakDays db uid today : Int)) ∧
    (hasCompletionOn db uid today = false → currentStreakDays db uid today = 0) := by
  have hle := streakWalk_le (learnedDates db uid today)
    ((learnedDates db uid today).length + 1) today
  have h1 : ∀ i : Nat, i < currentStreakDays db uid today →
      hasWindowedCompletion db uid today (today - (i : Int)) := by
    intro i hi
    exact (mem_learnedDates db uid today _).mp
      (streakWalk_mem (learnedDates db uid today) _ today i hi)
  have h2 : ¬ hasWindowedCompletion db uid today
      (today - (currentStreakDays db uid today : Int)) := by
    intro hcontra
    exact streakWalk_stop (learnedDates db uid today)
      ((learnedDates db uid today).length + 1) today (by omega)
      ((mem_learnedDates db uid today _).mpr hcontra)
  refine ⟨h1, h2, ?_⟩
  intro h
  by_contra hne
  have hpos : 0 < currentStreakDays db uid today := Nat.pos_of_ne_zero hne
  obtain ⟨p, hp, hu, hc, ts, hca, hwin, hdate⟩ := h1 0 hpos
  have hcomp : hasCompletionOn db uid today = true := by
    unfold hasCompletionOn
    apply List.any_eq_true.mpr
    refine ⟨p, hp, ?_⟩
    have hdate' : dateOf ts = today := by
      rw [hdate]
      simp
    simp [completionOn, hu, hc, hca, hdate']
  rw [h] at hcomp
  exact Bool.false_ne_true hcomp

/-- The current-streak computation as the claim words it: walk backward
from `now`'s date over the days having at least one completed lesson,
with NO window restriction (compare `currentStreakDays`, whose date set
only draws from the trailing 60 days). -/
def claimStreakDays (db : Db) (uid : Nat) (today : Int) : Nat :=
  let dates := (db.progresses.filter
    (fun p => p.user_id == uid && p.is_completed)).filterMap
    (fun p => p.completed_at.map dateOf)
  streakWalk dates (dates.length + 1) today

/-- Completion rows for user 7 on every day 0..60 (timestamps at
midnight). -/
def wDbStreakRows : List LessonProgress :=
  (List.range 61).map (fun i => ⟨i, 7, 1, true, some (midnight (i : Int))⟩)

/-- Store with user 7 completing a lesson on every day 0..60 — 61
consecutive active days up to `today = 60`. -/
def wDbStreak : Db := { wDb with progresses := wDbStreakRows }

/-- Counterexample to C8 as stated: with 61 consecutive active days, the
claim's walk (over all completion dates) gives 61, but the code's
`learned_dates` only retains the trailing 60 days
(`completed_at >= midnight (today - 59)`), so the persisted current
streak is 60. -/
theorem C8_counterexample :
    currentStreakDays wDbStreak 7 60 = 60 ∧
    claimStreakDays wDbStreak 7 60 = 61 := by
  constructor
  · decide
  · decide

/-- Witness for the amended C8: at 61 consecutive active days, every one
of the 60 counted streak days has a windowed completion and the day past
the streak has none. -/
theorem C8_current_streak_witness :
    hasWindowedCompletion wDbStreak 7 60 (60 - ((0 : Nat) : Int)) ∧
    ¬ hasWindowedCompletion wDbStreak 7 60
        (60 - (currentStreakDays wDbStreak 7 60 : Int)) := by
  obtain ⟨h1, h2, h3⟩ := C8_current_streak wDbStreak 7 60
  exact ⟨h1 0 (by decide), h2⟩

/-- Outcome of the GET retry view `quiz_retry`. -/
inductive RetryOutcome where
  /-- `QuizResult.query.get_or_404` failed. -/
  | notFound
  /-- Another user's result: `abort(404)`. -/
  | forbidden
  /-- No wrong answers: flash "nothing to retry", redirect to the result. -/
  | nothingToRetry (result_id : Nat)
  /-- Render the retry form over the given questions. -/
  | showQuestions (questions : List QuizQuestion)
deriving DecidableEq

/-- `main.quiz_retry` (src/app/main.py lines 1369-1394): look up the
result (404 when missing or owned by another user), re-derive the subset
of its detail rows with `is_correct = False` (`original.details` is the
relationship `result_id == original.id`, and the list comprehension keeps
the non-correct ones — modelled as one combined filter); when that subset
is empty, flash "全問正解" and redirect to the result page; otherwise
render the owning questions of the wrong details (`d.question`, resolved
through `question_id`). The handler performs no session writes, so the
store is returned unchanged. -/
def quizRetry (db : Db) (user : User) (result_id : Nat) : Db × RetryOutcome :=
  match db.results.find? (fun r => r.id == result_id) with
  | none => (db, .notFound)
  | some original =>
    if original.user_id != user.id then (db, .forbidden)
    else
      let wrong_details := db.details.filter
        (fun d => d.result_id == original.id && !d.is_correct)
      if wrong_details.isEmpty then (db, .nothingToRetry result_id)
      else
        (db, .showQuestions (wrong_details.filterMap
          (fun d => db.questions.find? (fun q => q.id == d.question_id))))

/-- One review row of the retry-scoring page. -/
structure RetryRow where
  question_id : Nat
  selected_text : String
  is_correct : Bool
  correct_text : Option String
deriving DecidableEq

/-- Outcome of the POST retry scoring `quiz_retry_submit`. -/
inductive RetrySubmitOutcome where
  /-- `QuizResult.query.get_or_404` failed. -/
  | notFound
  /-- Another user's result: `abort(404)`. -/
  | forbidden
  /-- `int(selected_id)` raised `ValueError` (there is no except here). -/
  | valueError
  /-- Render the ephemeral tally: score over the retried subset, the
  subset's size, and one review row per retried question. -/
  | graded (score : Nat) (total : Nat) (results : List RetryRow)
deriving DecidableEq

/-- The scoring loop of `quiz_retry_submit` (src/app/main.py lines
1505-1530) over the wrong details: read field `q<question id>` (note: no
underscore, unlike `quiz_take`); an absent or empty value is unanswered; a
non-integer value raises `ValueError` (modelled as an overall `none`); an
integer resolving to no stored choice stays unanswered; otherwise the
selected choice's stored flag counts toward the score. Each detail yields
one review row: the selected text or the "未回答" marker, the flag, and
the question's first stored correct-choice text. -/
def retryGrade (db : Db) (form : List (String × String)) :
    List QuizResultDetail → Option (Nat × List RetryRow)
  | [] => some (0, [])
  | d :: ds =>
    let step : Option (Option QuizChoice) :=
      match formGet form ("q" ++ toString d.question_id) with
      | none => some none
      | some s =>
        if s == "" then some none
        else
          match pyInt s with
          | none => none
          | some n => some (db.choices.find? (fun c => ((c.id : Int)) == n))
    match step with
    | none => none
    | some selected =>
      let is_correct := match selected with
        | none => false
        | some c => c.is_correct
      let correct_choice := (db.choices.filter
        (fun c => c.question_id == d.question_id)).find? (fun c => c.is_correct)
      let row : RetryRow := ⟨d.question_id,
        (match selected with | none => "未回答" | some c => c.choice_text),
        is_correct, correct_choice.map (fun c => c.choice_text)⟩
      match retryGrade db form ds with
      | none => none
      | some (sc, rows) => some ((if is_correct then 1 else 0) + sc, row :: rows)

/-- `main.quiz_retry_submit` (src/app/main.py lines 1489-1538): the same
lookup and ownership gate as `quiz_retry`, re-derive the wrong subset,
score the submitted form against it and render score, total (the subset's
size) and the review rows. There are no session writes anywhere on the
path: the store is returned unchanged and no new `QuizResult` is
persisted for the retry. -/
def quizRetrySubmit (db : Db) (user : User) (result_id : Nat)
    (form : List (String × String)) : Db × RetrySubmitOutcome :=
  match db.results.find? (fun r => r.id == result_id) with
  | none => (db, .notFound)
  | some original =>
    if original.user_id != user.id then (db, .forbidden)
    else
      let wrong_details := db.details.filter
        (fun d => d.result_id == original.id && !d.is_correct)
      match retryGrade db form wrong_details with
      | none => (db, .valueError)
      | some (score, rows) => (db, .graded score wrong_details.length rows)

/-- C6: both retry handlers re-derive the wrong-answer subset of the
prior result's details; an empty subset signals "nothing to retry" with
no write; and in every case neither handler mutates the store — the
original `QuizResult` and its `QuizResultDetail` rows survive unchanged
and no new `QuizResult` is persisted: the retry tally (score, total,
review rows) is purely ephemeral. -/
theorem C6_retry_is_ephemeral (db : Db) (user : User) (result_id : Nat)
    (form : List (String × String)) :
    (quizRetry db user result_id).1 = db ∧
    (quizRetrySubmit db user result_id form).1 = db ∧
    (∀ original, db.results.find? (fun r => r.id == result_id) = some original →
      original.user_id = user.id →
      (db.details.filter (fun d => d.result_id == original.id && !d.is_correct)
          = [] →
        (quizRetry db user result_id).2 = .nothingToRetry result_id) ∧
      (∀ wrong,
        db.details.filter (fun d => d.result_id == original.id && !d.is_correct)
          = wrong →
        wrong ≠ [] →
        (quizRetry db user result_id).2 = .showQuestions (wrong.filterMap
          (fun d => db.questions.find? (fun q => q.id == d.question_id))) ∧
        (∀ sc rows, retryGrade db form wrong = some (sc, rows) →
          (quizRetrySubmit db user result_id form).2
            = .graded sc wrong.length rows))) := by
  refine ⟨?_, ?_, ?_⟩
  · unfold quizRetry
    cases hf : db.results.find? (fun r => r.id == result_id) with
    | none => rfl
    | some original =>
      cases hown : (original.user_id != user.id) with
      | true => simp [hown]
      | false =>
        cases hempty : (db.details.filter
            (fun d => d.result_id == original.id && !d.is_correct)).isEmpty with
        | true => simp [hown, hempty]
        | false => simp [hown, hempty]
  · unfold quizRetrySubmit
    cases hf : db.results.find? (fun r => r.id == result_id) with
    | none => rfl
    | some original =>
      cases hown : (original.user_id != user.id) with
      | true => simp [hown]
      | false =>
        cases hg : retryGrade db form (db.details.filter
            (fun d => d.result_id == original.id && !d.is_correct)) with
        | none => simp [hown, hg]
        | some p =>
          cases p with
          | mk sc rows => simp [hown, hg]
  · intro original hf hown
    have hown' : (original.user_id != user.id) = false := by simp [hown]
    constructor
    · intro hempty
      simp [quizRetry, hf, hown', hempty]
    · intro wrong hw hne
      have hne' : wrong.isEmpty = false := by
        cases wrong with
        | nil => exact absurd rfl hne
        | cons a l => rfl
      constructor
      · simp [quizRetry, hf, hown', hw, hne']
      · intro sc rows hg
        have hg' : retryGrade db form (db.details.filter
            (fun d => d.result_id == original.id && !d.is_correct))
              = some (sc, rows) := by
          rw [hw]; exact hg
        have hlen : wrong.length = (db.details.filter
            (fun d => d.result_id == original.id && !d.is_correct)).length := by
          rw [hw]
        rw [hlen]
        simp [quizRetrySubmit, hf, hown', hg']

/-- Store with a prior result (id 1) of user 7 on lesson 1 scoring 1/2:
question 1 answered with correct choice 1, question 2 answered with the
wrong choice 4. -/
def wDbRetry : Db :=
  { wDb with
    choices := wDb.choices ++ [⟨4, 2, "D", false⟩],
    results := [⟨1, 7, 1, 1, 2, 0⟩],
    details := [⟨1, 1, 1, 1, true⟩, ⟨2, 1, 2, 4, false⟩] }

/-- Store with a fully-correct prior result (id 1) of user 7. -/
def wDbRetryAll : Db :=
  { wDb with
    results := [⟨1, 7, 1, 2, 2, 0⟩],
    details := [⟨1, 1, 1, 1, true⟩, ⟨2, 1, 2, 3, true⟩] }

/-- Witness for C6: on the 1/2 result the retry view shows exactly the
wrongly-answered question 2 and neither handler changes the store; on the
fully-correct result the retry view signals "nothing to retry". -/
theorem C6_retry_is_ephemeral_witness :
    (quizRetry wDbRetry wStudent 1).1 = wDbRetry ∧
    (quizRetrySubmit wDbRetry wStudent 1 [("q2", "3")]).1 = wDbRetry ∧
    (quizRetry wDbRetry wStudent 1).2 = RetryOutcome.showQuestions [⟨2, 1, 2⟩] ∧
    (quizRetry wDbRetryAll wStudent 1).2 = RetryOutcome.nothingToRetry 1 := by
  obtain ⟨h1, h2, h3⟩ := C6_retry_is_ephemeral wDbRetry wStudent 1 [("q2", "3")]
  obtain ⟨g1, g2, g3⟩ := C6_retry_is_ephemeral wDbRetryAll wStudent 1 []
  refine ⟨h1, h2, ?_, ?_⟩
  · have h := (h3 ⟨1, 7, 1, 1, 2, 0⟩ (by decide) rfl).2
      [⟨2, 1, 2, 4, false⟩] (by decide) (by decide)
    rw [h.1]
    decide
  · exact (g3 ⟨1, 7, 1, 2, 2, 0⟩ (by decide) rfl).1 (by decide)
